import Mathlib

/-!
Verification development for the AMPS spherical-harmonic evaluation engine
(`src/AMPS.py`).  The engine is shallowly embedded over exact rationals:
numpy 1-D arrays become `List ℚ`, 2-D arrays (shape points × keys) become
`List (List ℚ)` of rows, and the external collaborators (trigonometric
functions, the coefficient-model provider `get_model_vectors`, the Legendre
provider `get_legendre`, and the equal-area grid provider `equalAreaGrid`)
are abstract function fields of an `Env` structure, since the spec treats
them as black boxes.  `np.pi` is an abstract constant of the environment.
All definitions are translated line by line from `src/AMPS.py`; the line
numbers cited in doc comments refer to that file.
-/

namespace PyAMPS

/-- Permeability constant `MU0 = 4*np.pi*1e-7` (AMPS.py line 58); `pi` is the
environment's abstract constant. -/
def MU0 (pi : ℚ) : ℚ := 4 * pi * (1 / 10000000)

/-- Reference radius `REFRE = 6371.2` (AMPS.py line 59). -/
def REFRE : ℚ := 63712 / 10

/-- `np.dot` of two 1-D arrays (aligned; numpy requires equal lengths). -/
def dot (a b : List ℚ) : ℚ := (List.zipWith (· * ·) a b).sum

/-- `np.dot(A, c)` of a (points × keys) matrix with a keys-length vector. -/
def matVec (A : List (List ℚ)) (c : List ℚ) : List ℚ := A.map (fun row => dot row c)

/-- Elementwise product of two same-shape matrices. -/
def emul (A B : List (List ℚ)) : List (List ℚ) := List.zipWith (List.zipWith (· * ·)) A B

/-- numpy broadcasting `r * A` of a (1 × keys) row vector with a matrix. -/
def bcast (r : List ℚ) (A : List (List ℚ)) : List (List ℚ) :=
  A.map (fun row => List.zipWith (· * ·) r row)

/-- numpy broadcasting `A * r` of a matrix with a (1 × keys) row vector. -/
def bcastR (A : List (List ℚ)) (r : List ℚ) : List (List ℚ) :=
  A.map (fun row => List.zipWith (· * ·) row r)

/-- Scalar times matrix. -/
def smulMat (c : ℚ) (A : List (List ℚ)) : List (List ℚ) := A.map (List.map (fun x => c * x))

/-- Elementwise negation of a matrix (`-A`). -/
def negMat (A : List (List ℚ)) : List (List ℚ) := A.map (List.map (fun x => -x))

/-- `np.hstack((A, B))` of two matrices with the same number of rows. -/
def hstackM (A B : List (List ℚ)) : List (List ℚ) := List.zipWith (· ++ ·) A B

/-- numpy broadcasting `A / v` of a matrix by a (points × 1) column vector. -/
def colDiv (A : List (List ℚ)) (v : List ℚ) : List (List ℚ) :=
  List.zipWith (fun row c => row.map (fun x => x / c)) A v

/-- Elementwise vector addition. -/
def vadd (a b : List ℚ) : List ℚ := List.zipWith (· + ·) a b

/-- Elementwise vector subtraction. -/
def vsub (a b : List ℚ) : List ℚ := List.zipWith (· - ·) a b

/-- Elementwise vector division (aligned column vectors). -/
def vdiv (a b : List ℚ) : List ℚ := List.zipWith (· / ·) a b

/-- Elementwise vector negation. -/
def vneg (a : List ℚ) : List ℚ := a.map (fun x => -x)

/-- Scalar times vector. -/
def smulVec (c : ℚ) (v : List ℚ) : List ℚ := v.map (fun x => c * x)

/-- Cast a list of wave numbers to rationals (numpy does integer-to-float
promotion implicitly when broadcasting `m_P`, `n_P` into products). -/
def qrow (ms : List ℕ) : List ℚ := ms.map (fun m => (m : ℚ))

/-- `np.array([tab[key] for key in keys]).squeeze().T` (and the equivalent
`.T.squeeze()` of the custom-coordinate paths): the (points × keys) matrix
whose column `j` is the Legendre table array for `keys[j]`.  The tables are
aligned to the colatitude input of length `npts` (provider contract, spec
section 6); out-of-range reads default to 0 and are never exercised for
well-formed tables. -/
def legMat (tab : ℕ × ℕ → List ℚ) (keys : List (ℕ × ℕ)) (npts : ℕ) : List (List ℚ) :=
  (List.range npts).map (fun i => keys.map (fun k => (tab k).getD i 0))

/-- Azimuthal matrix `f(m * mlt * mlt2r)` as built by `calculate_matrices`
(lines 276-283): the factor `mlt2r = pi/12` is computed once and multiplied
last. -/
def azimC (f : ℚ → ℚ) (ms : List ℕ) (mlt : List ℚ) (mlt2r : ℚ) : List (List ℚ) :=
  mlt.map (fun t => ms.map (fun m => f (((m : ℚ) * t) * mlt2r)))

/-- Azimuthal matrix `f(m * mlt * np.pi/12)` as built by the
custom-coordinate paths (lines 506-507, 565-566, 704-705): here the raw
`pi` is multiplied in before the division by 12. -/
def azimF (f : ℚ → ℚ) (ms : List ℕ) (mlt : List ℚ) (pi : ℚ) : List (List ℚ) :=
  mlt.map (fun t => ms.map (fun m => f ((((m : ℚ) * t) * pi) / 12)))

/-- `np.cos(lat * np.pi/180)` columns (lines 285, 508, 567, 712). -/
def cosLat (c : ℚ → ℚ) (pi : ℚ) (lats : List ℚ) : List ℚ :=
  lats.map (fun x => c ((x * pi) / 180))

/-- `np.linspace a b n`. -/
def linspace (a b : ℚ) (n : ℕ) : List ℚ :=
  (List.range n).map (fun i => a + (b - a) * i / ((n : ℚ) - 1))

/-- `np.reshape(xs, (r, c))`, row major; total, with out-of-range reads
defaulting to 0 (callers always pass `xs.length = r * c`). -/
def reshape2 (r c : ℕ) (xs : List ℚ) : List (List ℚ) :=
  (List.range r).map (fun i => (List.range c).map (fun j => xs.getD (c * i + j) 0))

/-- `np.split(xs, 2)`: the two halves of an even-length array. -/
def npSplit2 (xs : List ℚ) : List ℚ × List ℚ :=
  (xs.take (xs.length / 2), xs.drop (xs.length / 2))

/-- `ndarray.min()` on a nonempty array (total: empty gives 0). -/
def amin (xs : List ℚ) : ℚ := xs.foldl min (xs.getD 0 0)

/-- `ndarray.max()` on a nonempty array (total: empty gives 0). -/
def amax (xs : List ℚ) : ℚ := xs.foldl max (xs.getD 0 0)

/-- The tuple returned by the coefficient-model provider
`get_model_vectors(v, By, Bz, tilt, F107)` (line 158). -/
structure ModelVectors where
  tor_c : List ℚ
  tor_s : List ℚ
  pol_c : List ℚ
  pol_s : List ℚ
  pol_keys : List (ℕ × ℕ)
  tor_keys : List (ℕ × ℕ)

/-- The abstract environment: trigonometric functions, the constant
`np.pi`, and the three external collaborators the spec names as
out-of-scope black boxes (coefficient-model provider, Legendre provider,
equal-area grid provider). -/
structure Env where
  cos : ℚ → ℚ
  sin : ℚ → ℚ
  pi : ℚ
  get_model_vectors : ℚ → ℚ → ℚ → ℚ → ℚ → ModelVectors
  get_legendre : ℕ → ℕ → List ℚ → (ℕ × ℕ → List ℚ) × (ℕ × ℕ → List ℚ)
  equalAreaGrid : ℚ → ℚ → List ℚ × List ℚ × List ℚ

/-- The northern-hemisphere (mlat, mlt) pairs of `AMPS._get_vectorgrid`
(lines 235-240): bin-center shift, then the latitude-band filter.  The
boolean-mask filtering of two aligned arrays by the `mlat` band condition
is modelled as filtering the zipped pairs (the provider returns aligned
arrays). -/
def vectorgrid_pairs (env : Env) (dr M0 minlat maxlat : ℚ) : List (ℚ × ℚ) :=
  let grid := env.equalAreaGrid dr M0
  let mlt0 := List.zipWith (fun a w => a + w / 2) grid.2.1 grid.2.2
  let mlat0 := grid.1.map (fun x => x + (grid.1.getD 1 0 - grid.1.getD 0 0) / 2)
  (mlat0.zip mlt0).filter (fun p => decide (minlat ≤ p.1) && decide (p.1 ≤ maxlat))

/-- `AMPS._get_vectorgrid` (lines 228-246): northern points, then the
southern hemisphere appended with latitude negated and local time kept
(lines 242-243). -/
def _get_vectorgrid (env : Env) (dr M0 minlat maxlat : ℚ) : List ℚ × List ℚ :=
  let pairs := vectorgrid_pairs env dr M0 minlat maxlat
  let mlat1 := pairs.map Prod.fst
  let mlt1 := pairs.map Prod.snd
  (mlat1 ++ mlat1.map (fun x => -x), mlt1 ++ mlt1)

/-- The raveled northern-hemisphere mlat values of `AMPS._get_scalargrid`
(line 259): `np.meshgrid(A, B)` raveled gives `A` repeated `|B|` times. -/
def scalargrid_mlat0 (minlat maxlat : ℚ) (resolution : ℕ) : List ℚ :=
  (linspace (-(1799 / 10)) (1799 / 10) resolution).flatMap
    (fun _ => linspace minlat maxlat resolution)

/-- The raveled northern-hemisphere (degree-convention) mlt values of
`AMPS._get_scalargrid` (line 259): each element of `B` repeated `|A|`
times. -/
def scalargrid_mlt0 (minlat maxlat : ℚ) (resolution : ℕ) : List ℚ :=
  (linspace (-(1799 / 10)) (1799 / 10) resolution).flatMap
    (fun b => (linspace minlat maxlat resolution).map (fun _ => b))

/-- `AMPS._get_scalargrid` (lines 249-264): mirror into the southern
hemisphere (latitude negated, local time kept), rescale local time from
degrees to hours and shift by +12. -/
def _get_scalargrid (minlat maxlat : ℚ) (resolution : ℕ) : List ℚ × List ℚ :=
  let mlat0 := scalargrid_mlat0 minlat maxlat resolution
  let mlt0 := scalargrid_mlt0 minlat maxlat resolution
  let mlat1 := mlat0 ++ mlat0.map (fun x => -x)
  let mlt1 := (mlt0 ++ mlt0).map (fun x => x * 12 / 180)
  (mlat1, mlt1.map (fun x => x + 12))

/-- The state of an `AMPS` object: coefficient store, harmonic key
structures, grids and the cached basis matrices. -/
structure AMPSState where
  tor_c : List ℚ
  tor_s : List ℚ
  pol_c : List ℚ
  pol_s : List ℚ
  pol_keys : List (ℕ × ℕ)
  tor_keys : List (ℕ × ℕ)
  height : ℚ
  dr : ℚ
  M0 : ℚ
  minlat : ℚ
  maxlat : ℚ
  keys_P : List (ℕ × ℕ)
  keys_T : List (ℕ × ℕ)
  m_P : List ℕ
  m_T : List ℕ
  n_P : List ℕ
  n_T : List ℕ
  N : ℕ
  M : ℕ
  vectorgrid : List ℚ × List ℚ
  scalargrid : List ℚ × List ℚ
  scalar_resolution : ℕ
  pol_cosmphi_vector : List (List ℚ)
  pol_cosmphi_scalar : List (List ℚ)
  pol_sinmphi_vector : List (List ℚ)
  pol_sinmphi_scalar : List (List ℚ)
  tor_cosmphi_vector : List (List ℚ)
  tor_cosmphi_scalar : List (List ℚ)
  tor_sinmphi_vector : List (List ℚ)
  tor_sinmphi_scalar : List (List ℚ)
  coslambda_vector : List ℚ
  pol_P_vector : List (List ℚ)
  pol_dP_vector : List (List ℚ)
  pol_P_scalar : List (List ℚ)
  pol_dP_scalar : List (List ℚ)
  tor_P_vector : List (List ℚ)
  tor_dP_vector : List (List ℚ)
  tor_P_scalar : List (List ℚ)
  tor_dP_scalar : List (List ℚ)

/-- `AMPS.calculate_matrices` (lines 266-298): populates the azimuthal and
Legendre basis-matrix fields for both grids and both harmonic sets; the
`dP` matrices are sign-flipped (lines 292-298) since the code uses latitude
rather than colatitude. -/
def calculate_matrices (env : Env) (s : AMPSState) : AMPSState :=
  let mlt2r := env.pi / 12
  let vtab := env.get_legendre s.N s.M (s.vectorgrid.1.map (fun x => 90 - x))
  let stab := env.get_legendre s.N s.M (s.scalargrid.1.map (fun x => 90 - x))
  let nv := s.vectorgrid.1.length
  let ns := s.scalargrid.1.length
  { s with
    pol_cosmphi_vector := azimC env.cos s.m_P s.vectorgrid.2 mlt2r
    pol_cosmphi_scalar := azimC env.cos s.m_P s.scalargrid.2 mlt2r
    pol_sinmphi_vector := azimC env.sin s.m_P s.vectorgrid.2 mlt2r
    pol_sinmphi_scalar := azimC env.sin s.m_P s.scalargrid.2 mlt2r
    tor_cosmphi_vector := azimC env.cos s.m_T s.vectorgrid.2 mlt2r
    tor_cosmphi_scalar := azimC env.cos s.m_T s.scalargrid.2 mlt2r
    tor_sinmphi_vector := azimC env.sin s.m_T s.vectorgrid.2 mlt2r
    tor_sinmphi_scalar := azimC env.sin s.m_T s.scalargrid.2 mlt2r
    coslambda_vector := cosLat env.cos env.pi s.vectorgrid.1
    pol_P_vector := legMat vtab.1 s.keys_P nv
    pol_dP_vector := negMat (legMat vtab.2 s.keys_P nv)
    pol_P_scalar := legMat stab.1 s.keys_P ns
    pol_dP_scalar := negMat (legMat stab.2 s.keys_P ns)
    tor_P_vector := legMat vtab.1 s.keys_T nv
    tor_dP_vector := negMat (legMat vtab.2 s.keys_T nv)
    tor_P_scalar := legMat stab.1 s.keys_T ns
    tor_dP_scalar := negMat (legMat stab.2 s.keys_T ns) }

/-- Line 180 of `AMPS.__init__`, as written in the source:
`np.max(np.hstack((tor_keys.T, tor_keys.T)), axis=1)` — the horizontal
stack concatenates the toroidal degree/order rows with themselves (the
poloidal keys do not participate). -/
def compute_NM (tor_keys : List (ℕ × ℕ)) : ℕ × ℕ :=
  ((tor_keys.map Prod.fst ++ tor_keys.map Prod.fst).foldr max 0,
   (tor_keys.map Prod.snd ++ tor_keys.map Prod.snd).foldr max 0)

/-- The assert of `AMPS.__init__` (line 166), exactly as written in the
source: `(len(pol_s) == len(pol_c)) and (len(pol_s) == len(pol_c))` — the
same poloidal comparison twice. -/
def initAssert (mv : ModelVectors) : Bool :=
  (mv.pol_s.length == mv.pol_c.length) && (mv.pol_s.length == mv.pol_c.length)

/-- The state built by `AMPS.__init__` (lines 154-184) once the assert has
passed: provider call, key structures, grids, then `calculate_matrices`. -/
def initState (env : Env) (v By Bz tilt F107 minlat maxlat height dr M0 : ℚ)
    (resolution : ℕ) : AMPSState :=
  let mv := env.get_model_vectors v By Bz tilt F107
  let keys_P := mv.pol_keys
  let keys_T := mv.tor_keys
  let nm := compute_NM mv.tor_keys
  calculate_matrices env
    { tor_c := mv.tor_c
      tor_s := mv.tor_s
      pol_c := mv.pol_c
      pol_s := mv.pol_s
      pol_keys := mv.pol_keys
      tor_keys := mv.tor_keys
      height := height
      dr := dr
      M0 := M0
      minlat := minlat
      maxlat := maxlat
      keys_P := keys_P
      keys_T := keys_T
      m_P := keys_P.map Prod.snd
      m_T := keys_T.map Prod.snd
      n_P := keys_P.map Prod.fst
      n_T := keys_T.map Prod.fst
      N := nm.1
      M := nm.2
      vectorgrid := _get_vectorgrid env dr M0 minlat maxlat
      scalargrid := _get_scalargrid minlat maxlat resolution
      scalar_resolution := resolution
      pol_cosmphi_vector := []
      pol_cosmphi_scalar := []
      pol_sinmphi_vector := []
      pol_sinmphi_scalar := []
      tor_cosmphi_vector := []
      tor_cosmphi_scalar := []
      tor_sinmphi_vector := []
      tor_sinmphi_scalar := []
      coslambda_vector := []
      pol_P_vector := []
      pol_dP_vector := []
      pol_P_scalar := []
      pol_dP_scalar := []
      tor_P_vector := []
      tor_dP_vector := []
      tor_P_scalar := []
      tor_dP_scalar := [] }

/-- `AMPS.__init__`: fails (assert) when `initAssert` is false, otherwise
yields the constructed state. -/
def init (env : Env) (v By Bz tilt F107 minlat maxlat height dr M0 : ℚ)
    (resolution : ℕ) : Option AMPSState :=
  if initAssert (env.get_model_vectors v By Bz tilt F107) then
    some (initState env v By Bz tilt F107 minlat maxlat height dr M0 resolution)
  else
    none

/-- `AMPS.update_model` (lines 186-224): re-invokes the coefficient-model
provider and replaces the four coefficient vectors and the two key-set
references; nothing else is assigned (and nothing is checked). -/
def update_model (env : Env) (v By Bz tilt F107 : ℚ) (s : AMPSState) : AMPSState :=
  let mv := env.get_model_vectors v By Bz tilt F107
  { s with
    tor_c := mv.tor_c
    tor_s := mv.tor_s
    pol_c := mv.pol_c
    pol_s := mv.pol_s
    pol_keys := mv.pol_keys
    tor_keys := mv.tor_keys }

/-- The radial factor row of `get_divergence_free_current` (line 489):
`(REFRE/(REFRE+h))**(n_P+2.) * (2.*n_P+1.)/n_P / MU0 * 1e-6`. -/
def rtor_df (pi h : ℚ) (ns : List ℕ) : List ℚ :=
  ns.map (fun n =>
    (REFRE / (REFRE + h)) ^ (n + 2 : ℕ) * (2 * (n : ℚ) + 1) / (n : ℚ) / MU0 pi * (1 / 1000000))

/-- `AMPS.get_divergence_free_current` (lines 459-515).  `DEFAULT` sentinel
arguments are modelled by `Option`: the cached-grid branch is taken when
either argument is missing (`if mlat is DEFAULT or mlt is DEFAULT`). -/
def get_divergence_free_current (env : Env) (s : AMPSState)
    (mlat mlt : Option (List ℚ)) : List ℚ × List ℚ :=
  let rtor := rtor_df env.pi s.height s.n_P
  match mlat, mlt with
  | some mlat, some mlt =>
      let tabs := env.get_legendre s.N s.M (mlat.map (fun x => 90 - x))
      let P := legMat tabs.1 s.keys_P mlat.length
      let dP := negMat (legMat tabs.2 s.keys_P mlat.length)
      let cosmphi := azimF env.cos s.m_P mlt env.pi
      let sinmphi := azimF env.sin s.m_P mlt env.pi
      let coslambda := cosLat env.cos env.pi mlat
      let east := vadd (matVec (emul (bcast rtor dP) cosmphi) s.pol_c)
                       (matVec (emul (bcast rtor dP) sinmphi) s.pol_s)
      let north := vdiv
        (vadd (vneg (matVec (emul (bcastR (bcast rtor P) (qrow s.m_P)) cosmphi) s.pol_s))
              (matVec (emul (bcastR (bcast rtor P) (qrow s.m_P)) sinmphi) s.pol_c))
        coslambda
      (east, north)
  | _, _ =>
      let east := vadd (matVec (emul (bcast rtor s.pol_dP_vector) s.pol_cosmphi_vector) s.pol_c)
                       (matVec (emul (bcast rtor s.pol_dP_vector) s.pol_sinmphi_vector) s.pol_s)
      let north := vdiv
        (vneg (vsub
          (matVec (emul (bcastR (bcast rtor s.pol_P_vector) (qrow s.m_P)) s.pol_cosmphi_vector) s.pol_s)
          (matVec (emul (bcastR (bcast rtor s.pol_P_vector) (qrow s.m_P)) s.pol_sinmphi_vector) s.pol_c)))
        s.coslambda_vector
      (east, north)

/-- `AMPS.get_curl_free_current` (lines 519-575); `rtor = -1.e-6/MU0` is a
scalar here. -/
def get_curl_free_current (env : Env) (s : AMPSState)
    (mlat mlt : Option (List ℚ)) : List ℚ × List ℚ :=
  let rtor := -(1 / 1000000) / MU0 env.pi
  match mlat, mlt with
  | some mlat, some mlt =>
      let tabs := env.get_legendre s.N s.M (mlat.map (fun x => 90 - x))
      let P := legMat tabs.1 s.keys_T mlat.length
      let dP := negMat (legMat tabs.2 s.keys_T mlat.length)
      let cosmphi := azimF env.cos s.m_T mlt env.pi
      let sinmphi := azimF env.sin s.m_T mlt env.pi
      let coslambda := cosLat env.cos env.pi mlat
      let east := vdiv
        (vsub (matVec (emul (bcastR (smulMat rtor P) (qrow s.m_T)) cosmphi) s.tor_s)
              (matVec (emul (bcastR (smulMat rtor P) (qrow s.m_T)) sinmphi) s.tor_c))
        coslambda
      let north := vadd (matVec (emul (smulMat rtor dP) cosmphi) s.tor_c)
                        (matVec (emul (smulMat rtor dP) sinmphi) s.tor_s)
      (east, north)
  | _, _ =>
      let east := vdiv
        (smulVec rtor
          (vsub (matVec (emul (bcastR s.tor_P_vector (qrow s.m_T)) s.tor_cosmphi_vector) s.tor_s)
                (matVec (emul (bcastR s.tor_P_vector (qrow s.m_T)) s.tor_sinmphi_vector) s.tor_c)))
        s.coslambda_vector
      let north := smulVec rtor
        (vadd (matVec (emul s.tor_dP_vector s.tor_cosmphi_vector) s.tor_c)
              (matVec (emul s.tor_dP_vector s.tor_sinmphi_vector) s.tor_s))
      (east, north)

/-- `AMPS.get_total_current` (lines 578-609): componentwise sum of the
curl-free and divergence-free parts, via `zip` of the two returned pairs. -/
def get_total_current (env : Env) (s : AMPSState)
    (mlat mlt : Option (List ℚ)) : List ℚ × List ℚ :=
  let cf := get_curl_free_current env s mlat mlt
  let df := get_divergence_free_current env s mlat mlt
  (vadd cf.1 df.1, vadd cf.2 df.2)

/-- `AMPS.get_upward_current` (lines 409-430). -/
def get_upward_current (env : Env) (s : AMPSState) : List (List ℚ) × List (List ℚ) :=
  let Ju := smulVec (-(1 / 1000000) / (MU0 env.pi * (REFRE + s.height)))
    (vadd
      (matVec (emul (bcast (s.n_T.map (fun n => (n : ℚ) * ((n : ℚ) + 1))) s.tor_P_scalar)
        s.tor_cosmphi_scalar) s.tor_c)
      (matVec (emul (bcast (s.n_T.map (fun n => (n : ℚ) * ((n : ℚ) + 1))) s.tor_P_scalar)
        s.tor_sinmphi_scalar) s.tor_s))
  let h := npSplit2 Ju
  (reshape2 s.scalar_resolution s.scalar_resolution h.1,
   reshape2 s.scalar_resolution s.scalar_resolution h.2)

/-- `AMPS.get_ground_perturbation` (lines 648-717).  Note the Legendre
derivative table is used here without the sign flip (line 703), and the
leading minus sign sits on the radial factor of the north component
(line 708). -/
def get_ground_perturbation (env : Env) (s : AMPSState) (mlat mlt : List ℚ) :
    List ℚ × List ℚ :=
  let rr := REFRE / (REFRE + s.height)
  let tabs := env.get_legendre s.N s.M (mlat.map (fun x => 90 - x))
  let P := legMat tabs.1 s.keys_P mlat.length
  let dP := legMat tabs.2 s.keys_P mlat.length
  let cosmphi := azimF env.cos s.m_P mlt env.pi
  let sinmphi := azimF env.sin s.m_P mlt env.pi
  let G_cn := bcast (s.n_P.map (fun n => -(rr ^ (2 * n + 1 : ℕ)) * ((n : ℚ) + 1) / (n : ℚ))) dP
  let Gn := hstackM (emul G_cn cosmphi) (emul G_cn sinmphi)
  let G_ce := colDiv
    (bcastR (bcast (s.n_P.map (fun n => rr ^ (2 * n + 1 : ℕ) * ((n : ℚ) + 1) / (n : ℚ))) P)
      (qrow s.m_P))
    (cosLat env.cos env.pi mlat)
  let Ge := hstackM (emul (negMat G_ce) sinmphi) (emul G_ce cosmphi)
  let model := s.pol_c ++ s.pol_s
  (matVec Ge model, matVec Gn model)

/-- `AMPS.get_AE_indices` (lines 720-759): reuses the cached (sign-flipped)
`pol_dP_scalar` and the cached azimuthal matrices and reports the per-
hemisphere min and max of the resulting northward perturbation. -/
def get_AE_indices (s : AMPSState) : ℚ × ℚ × ℚ × ℚ :=
  let rr := REFRE / (REFRE + s.height)
  let dP := s.pol_dP_scalar
  let G_cn := bcast (s.n_P.map (fun n => rr ^ (2 * n + 1 : ℕ) * ((n : ℚ) + 1) / (n : ℚ))) dP
  let Gn := hstackM (emul G_cn s.pol_cosmphi_scalar) (emul G_cn s.pol_sinmphi_scalar)
  let Bn := matVec Gn (s.pol_c ++ s.pol_s)
  let h := npSplit2 Bn
  (amin h.1, amin h.2, amax h.1, amax h.2)

/-- A small concrete environment used to evaluate the engine on explicit
inputs: constant trigonometric functions and constant Legendre tables. -/
def envW : Env where
  cos := fun _ => 1
  sin := fun _ => 0
  pi := 3
  get_model_vectors := fun _ _ _ _ _ =>
    { tor_c := [1], tor_s := [2], pol_c := [3], pol_s := [4]
      pol_keys := [(1, 0)], tor_keys := [(1, 1)] }
  get_legendre := fun _ _ colat =>
    (fun _ => colat.map (fun _ => 1), fun _ => colat.map (fun _ => 1))
  equalAreaGrid := fun _ _ => ([70, 80], [0, 6], [2, 2])

/-- A small concrete engine state (two grid points, one harmonic key per
set) used to evaluate the evaluators on explicit inputs. -/
def sW : AMPSState where
  tor_c := [1]
  tor_s := [1]
  pol_c := [1]
  pol_s := [1]
  pol_keys := [(1, 0)]
  tor_keys := [(1, 0)]
  height := 110
  dr := 2
  M0 := 4
  minlat := 60
  maxlat := 8999 / 100
  keys_P := [(1, 0)]
  keys_T := [(1, 0)]
  m_P := [0]
  m_T := [0]
  n_P := [1]
  n_T := [1]
  N := 1
  M := 0
  vectorgrid := ([75, -75], [3, 3])
  scalargrid := ([75, -75], [12, 12])
  scalar_resolution := 1
  pol_cosmphi_vector := [[1], [1]]
  pol_cosmphi_scalar := [[1], [1]]
  pol_sinmphi_vector := [[1], [1]]
  pol_sinmphi_scalar := [[1], [1]]
  tor_cosmphi_vector := [[1], [1]]
  tor_cosmphi_scalar := [[1], [1]]
  tor_sinmphi_vector := [[1], [1]]
  tor_sinmphi_scalar := [[1], [1]]
  coslambda_vector := [1, 1]
  pol_P_vector := [[1], [1]]
  pol_dP_vector := [[1], [1]]
  pol_P_scalar := [[1], [1]]
  pol_dP_scalar := [[1], [1]]
  tor_P_vector := [[1], [1]]
  tor_dP_vector := [[1], [1]]
  tor_P_scalar := [[1], [1]]
  tor_dP_scalar := [[1], [1]]

/-- `getD` distributes over a componentwise sum of equal-length vectors. -/
theorem vadd_getD (u v : List ℚ) (h : u.length = v.length) (i : ℕ) :
    (vadd u v).getD i 0 = u.getD i 0 + v.getD i 0 := by
  induction u generalizing v i with
  | nil =>
    have hv : v = [] := by cases v <;> simp_all
    subst hv
    simp [vadd]
  | cons a u ih =>
    cases v with
    | nil => simp at h
    | cons b v =>
      cases i with
      | zero => simp [vadd]
      | succ i => simpa [vadd] using ih v (by simpa using h) i

/-- Claim C1: for every coefficient state and every evaluation-coordinate
choice (cached vector grid via the sentinel defaults, or custom mlat/mlt
arrays), `get_total_current` returns, componentwise for both the eastward
and northward outputs, the sum of the outputs of `get_curl_free_current`
and `get_divergence_free_current` at the same arguments. -/
theorem spec_c1 (env : Env) (s : AMPSState) (mlat mlt : Option (List ℚ)) (i : ℕ)
    (he : (get_curl_free_current env s mlat mlt).1.length
        = (get_divergence_free_current env s mlat mlt).1.length)
    (hn : (get_curl_free_current env s mlat mlt).2.length
        = (get_divergence_free_current env s mlat mlt).2.length) :
    (get_total_current env s mlat mlt).1.getD i 0
      = (get_curl_free_current env s mlat mlt).1.getD i 0
        + (get_divergence_free_current env s mlat mlt).1.getD i 0
  ∧ (get_total_current env s mlat mlt).2.getD i 0
      = (get_curl_free_current env s mlat mlt).2.getD i 0
        + (get_divergence_free_current env s mlat mlt).2.getD i 0 :=
  ⟨vadd_getD _ _ he i, vadd_getD _ _ hn i⟩

/-- Witness for C1 at the concrete environment `envW`, state `sW`, the
cached-grid path, component index 0. -/
theorem spec_c1_witness :
    ((get_curl_free_current envW sW none none).1.length
        = (get_divergence_free_current envW sW none none).1.length)
  ∧ ((get_curl_free_current envW sW none none).2.length
        = (get_divergence_free_current envW sW none none).2.length)
  ∧ ((get_total_current envW sW none none).1.getD 0 0
      = (get_curl_free_current envW sW none none).1.getD 0 0
        + (get_divergence_free_current envW sW none none).1.getD 0 0) :=
  ⟨rfl, rfl, (spec_c1 envW sW none none 0 rfl rfl).1⟩

/-- Claim C5: `update_model` replaces only the four coefficient vectors and
the two key-set references; the two grids and every cached basis matrix
hold exactly the values they held before the call. -/
theorem spec_c5 (env : Env) (v By Bz tilt F107 : ℚ) (s : AMPSState) :
    (update_model env v By Bz tilt F107 s).vectorgrid = s.vectorgrid
  ∧ (update_model env v By Bz tilt F107 s).scalargrid = s.scalargrid
  ∧ (update_model env v By Bz tilt F107 s).pol_cosmphi_vector = s.pol_cosmphi_vector
  ∧ (update_model env v By Bz tilt F107 s).pol_cosmphi_scalar = s.pol_cosmphi_scalar
  ∧ (update_model env v By Bz tilt F107 s).pol_sinmphi_vector = s.pol_sinmphi_vector
  ∧ (update_model env v By Bz tilt F107 s).pol_sinmphi_scalar = s.pol_sinmphi_scalar
  ∧ (update_model env v By Bz tilt F107 s).tor_cosmphi_vector = s.tor_cosmphi_vector
  ∧ (update_model env v By Bz tilt F107 s).tor_cosmphi_scalar = s.tor_cosmphi_scalar
  ∧ (update_model env v By Bz tilt F107 s).tor_sinmphi_vector = s.tor_sinmphi_vector
  ∧ (update_model env v By Bz tilt F107 s).tor_sinmphi_scalar = s.tor_sinmphi_scalar
  ∧ (update_model env v By Bz tilt F107 s).coslambda_vector = s.coslambda_vector
  ∧ (update_model env v By Bz tilt F107 s).pol_P_vector = s.pol_P_vector
  ∧ (update_model env v By Bz tilt F107 s).pol_dP_vector = s.pol_dP_vector
  ∧ (update_model env v By Bz tilt F107 s).pol_P_scalar = s.pol_P_scalar
  ∧ (update_model env v By Bz tilt F107 s).pol_dP_scalar = s.pol_dP_scalar
  ∧ (update_model env v By Bz tilt F107 s).tor_P_vector = s.tor_P_vector
  ∧ (update_model env v By Bz tilt F107 s).tor_dP_vector = s.tor_dP_vector
  ∧ (update_model env v By Bz tilt F107 s).tor_P_scalar = s.tor_P_scalar
  ∧ (update_model env v By Bz tilt F107 s).tor_dP_scalar = s.tor_dP_scalar
  ∧ (update_model env v By Bz tilt F107 s).tor_c
      = (env.get_model_vectors v By Bz tilt F107).tor_c
  ∧ (update_model env v By Bz tilt F107 s).tor_s
      = (env.get_model_vectors v By Bz tilt F107).tor_s
  ∧ (update_model env v By Bz tilt F107 s).pol_c
      = (env.get_model_vectors v By Bz tilt F107).pol_c
  ∧ (update_model env v By Bz tilt F107 s).pol_s
      = (env.get_model_vectors v By Bz tilt F107).pol_s :=
  ⟨rfl, rfl, rfl, rfl, rfl, rfl, rfl, rfl, rfl, rfl, rfl, rfl,
   rfl, rfl, rfl, rfl, rfl, rfl, rfl, rfl, rfl, rfl, rfl⟩

/-- Claim C9: after `update_model` the derived key structures read by the
evaluators (`keys_P`, `keys_T`, `m_P`, `m_T`, `n_P`, `n_T`, `N`, `M`) keep
their construction-time values, even though `pol_keys` and `tor_keys` are
replaced by the provider's new return values. -/
theorem spec_c9 (env : Env) (v By Bz tilt F107 : ℚ) (s : AMPSState) :
    (update_model env v By Bz tilt F107 s).keys_P = s.keys_P
  ∧ (update_model env v By Bz tilt F107 s).keys_T = s.keys_T
  ∧ (update_model env v By Bz tilt F107 s).m_P = s.m_P
  ∧ (update_model env v By Bz tilt F107 s).m_T = s.m_T
  ∧ (update_model env v By Bz tilt F107 s).n_P = s.n_P
  ∧ (update_model env v By Bz tilt F107 s).n_T = s.n_T
  ∧ (update_model env v By Bz tilt F107 s).N = s.N
  ∧ (update_model env v By Bz tilt F107 s).M = s.M
  ∧ (update_model env v By Bz tilt F107 s).pol_keys
      = (env.get_model_vectors v By Bz tilt F107).pol_keys
  ∧ (update_model env v By Bz tilt F107 s).tor_keys
      = (env.get_model_vectors v By Bz tilt F107).tor_keys :=
  ⟨rfl, rfl, rfl, rfl, rfl, rfl, rfl, rfl, rfl, rfl⟩

/-- Claim C10: when exactly one of the optional `mlat`, `mlt` arguments is
supplied to the three current evaluators, the call succeeds and the
supplied coordinate is ignored: the result is the cached-vector-grid
evaluation. -/
theorem spec_c10 (env : Env) (s : AMPSState) (a : List ℚ) :
    get_divergence_free_current env s (some a) none
      = get_divergence_free_current env s none none
  ∧ get_divergence_free_current env s none (some a)
      = get_divergence_free_current env s none none
  ∧ get_curl_free_current env s (some a) none = get_curl_free_current env s none none
  ∧ get_curl_free_current env s none (some a) = get_curl_free_current env s none none
  ∧ get_total_current env s (some a) none = get_total_current env s none none
  ∧ get_total_current env s none (some a) = get_total_current env s none none :=
  ⟨rfl, rfl, rfl, rfl, rfl, rfl⟩

/-- An environment whose coefficient-model provider returns a poloidal key
of degree 3 and order 2 but only the toroidal key (1,0). -/
def env3 : Env where
  cos := fun _ => 1
  sin := fun _ => 0
  pi := 3
  get_model_vectors := fun _ _ _ _ _ =>
    { tor_c := [1], tor_s := [1], pol_c := [1], pol_s := [1]
      pol_keys := [(3, 2)], tor_keys := [(1, 0)] }
  get_legendre := fun _ _ colat =>
    (fun _ => colat.map (fun _ => 1), fun _ => colat.map (fun _ => 1))
  equalAreaGrid := fun _ _ => ([70, 80], [0, 6], [2, 2])

/-- The state constructed over `env3`. -/
def s3 : AMPSState := initState env3 1 1 1 1 1 60 (8999 / 100) 110 2 4 2

/-- Claim C3 fails on the code: line 180 stacks the toroidal key array with
itself, so `N` and `M` are the maxima over the toroidal keys only.  With
`pol_keys = [(3,2)]` and `tor_keys = [(1,0)]` the construction yields
`N = 1`, `M = 0`, smaller than the degree and order of the poloidal key,
contradicting the claimed `N >= n`, `M >= m` for every key of `keys_P`. -/
theorem spec_c3_code_bug :
    s3.keys_P = [(3, 2)]
  ∧ s3.keys_T = [(1, 0)]
  ∧ s3.N = 1
  ∧ s3.M = 0
  ∧ ¬ (∀ k ∈ s3.keys_P, k.1 ≤ s3.N ∧ k.2 ≤ s3.M) := by
  refine ⟨rfl, rfl, rfl, rfl, ?_⟩
  intro h
  exact absurd ((h (3, 2) (by decide)).1) (by decide)

/-- An environment whose coefficient-model provider returns toroidal
cosine/sine coefficient vectors of different lengths (1 and 2). -/
def env4 : Env where
  cos := fun _ => 1
  sin := fun _ => 0
  pi := 3
  get_model_vectors := fun _ _ _ _ _ =>
    { tor_c := [1], tor_s := [1, 2], pol_c := [5], pol_s := [6]
      pol_keys := [(1, 0)], tor_keys := [(1, 0)] }
  get_legendre := fun _ _ colat =>
    (fun _ => colat.map (fun _ => 1), fun _ => colat.map (fun _ => 1))
  equalAreaGrid := fun _ _ => ([70, 80], [0, 6], [2, 2])

/-- Claim C4 fails on the code: the assert on line 166 compares the
poloidal lengths with themselves twice and never the toroidal pair, and
`update_model` checks nothing.  Construction with `len(tor_c) = 1` and
`len(tor_s) = 2` succeeds rather than aborting, and the resulting state
(and likewise the state after `update_model`) violates
`len(tor_c) == len(tor_s)`. -/
theorem spec_c4_code_bug :
    (init env4 1 1 1 1 1 60 (8999 / 100) 110 2 4 2).isSome = true
  ∧ (initState env4 1 1 1 1 1 60 (8999 / 100) 110 2 4 2).tor_c.length = 1
  ∧ (initState env4 1 1 1 1 1 60 (8999 / 100) 110 2 4 2).tor_s.length = 2
  ∧ (update_model env4 1 1 1 1 1 sW).tor_c.length
      ≠ (update_model env4 1 1 1 1 1 sW).tor_s.length :=
  ⟨rfl, rfl, rfl, by decide⟩

/-- Claim C8: with `minlat = 60`, `maxlat = 89.99`, `height = 110`,
`resolution = 4` and any driver tuple, the scalar grid has exactly 32
points, indices 0-15 carry positive latitudes, indices 16-31 carry the
negated latitudes of indices 0-15 in order, and `get_upward_current`
returns two 4 × 4 arrays. -/
theorem spec_c8 (env : Env) (v By Bz tilt F107 : ℚ) :
    (initState env v By Bz tilt F107 60 (8999 / 100) 110 2 4 4).scalargrid.1.length = 32
  ∧ (∀ i < 16,
      0 < (initState env v By Bz tilt F107 60 (8999 / 100) 110 2 4 4).scalargrid.1.getD i 0)
  ∧ (∀ i < 16,
      (initState env v By Bz tilt F107 60 (8999 / 100) 110 2 4 4).scalargrid.1.getD (16 + i) 0
        = -(initState env v By Bz tilt F107 60 (8999 / 100) 110 2 4 4).scalargrid.1.getD i 0)
  ∧ (get_upward_current env
      (initState env v By Bz tilt F107 60 (8999 / 100) 110 2 4 4)).1.length = 4
  ∧ (∀ row ∈ (get_upward_current env
      (initState env v By Bz tilt F107 60 (8999 / 100) 110 2 4 4)).1, row.length = 4)
  ∧ (get_upward_current env
      (initState env v By Bz tilt F107 60 (8999 / 100) 110 2 4 4)).2.length = 4
  ∧ (∀ row ∈ (get_upward_current env
      (initState env v By Bz tilt F107 60 (8999 / 100) 110 2 4 4)).2, row.length = 4) := by
  have hr : (initState env v By Bz tilt F107 60 (8999 / 100) 110 2 4 4).scalar_resolution
      = 4 := rfl
  have hA : (initState env v By Bz tilt F107 60 (8999 / 100) 110 2 4 4).scalargrid.1
      = (linspace 60 (8999 / 100) 4 ++ (linspace 60 (8999 / 100) 4
          ++ (linspace 60 (8999 / 100) 4 ++ (linspace 60 (8999 / 100) 4 ++ []))))
        ++ ((linspace 60 (8999 / 100) 4 ++ (linspace 60 (8999 / 100) 4
          ++ (linspace 60 (8999 / 100) 4 ++ (linspace 60 (8999 / 100) 4 ++ [])))).map
            (fun x => -x)) := rfl
  have hL : linspace 60 (8999 / 100) 4
      = [60 + (8999 / 100 - 60) * ((0 : ℕ) : ℚ) / (((4 : ℕ) : ℚ) - 1),
         60 + (8999 / 100 - 60) * ((1 : ℕ) : ℚ) / (((4 : ℕ) : ℚ) - 1),
         60 + (8999 / 100 - 60) * ((2 : ℕ) : ℚ) / (((4 : ℕ) : ℚ) - 1),
         60 + (8999 / 100 - 60) * ((3 : ℕ) : ℚ) / (((4 : ℕ) : ℚ) - 1)] := rfl
  refine ⟨rfl, ?_, ?_, rfl, ?_, rfl, ?_⟩
  · intro i hi
    rw [hA, hL]
    interval_cases i <;>
      norm_num [List.cons_append, List.nil_append, List.map_cons, List.map_nil,
        List.getD_cons_zero, List.getD_cons_succ]
  · intro i hi
    rw [hA, hL]
    interval_cases i <;>
      norm_num [List.cons_append, List.nil_append, List.map_cons, List.map_nil,
        List.getD_cons_zero, List.getD_cons_succ]
  · intro row hrow
    simp only [get_upward_current, reshape2, hr, List.mem_map, List.mem_range] at hrow
    obtain ⟨i, _, rfl⟩ := hrow
    simp
  · intro row hrow
    simp only [get_upward_current, reshape2, hr, List.mem_map, List.mem_range] at hrow
    obtain ⟨i, _, rfl⟩ := hrow
    simp

/-- Reading the southern half of a mirrored latitude array: index
`l.length + i` holds the negation of index `i`. -/
theorem append_neg_getD (l : List ℚ) (i : ℕ) (h : i < l.length) :
    (l ++ l.map (fun x => -x)).getD (l.length + i) 0 = -(l.getD i 0) := by
  rw [List.getD_eq_getElem?_getD, List.getD_eq_getElem?_getD,
    List.getElem?_append_right (Nat.le_add_right _ _)]
  simp [List.getElem?_map, List.getElem?_eq_getElem h]

/-- Reading the southern half of a duplicated local-time array: index
`l.length + i` holds the value of index `i`. -/
theorem append_self_getD (l : List ℚ) (i : ℕ) (h : i < l.length) :
    (l ++ l).getD (l.length + i) 0 = l.getD i 0 := by
  rw [List.getD_eq_getElem?_getD, List.getD_eq_getElem?_getD,
    List.getElem?_append_right (Nat.le_add_right _ _)]
  simp [List.getElem?_eq_getElem h]

/-- Reading the northern half of an appended array. -/
theorem append_left_getD (l l' : List ℚ) (i : ℕ) (h : i < l.length) :
    (l ++ l').getD i 0 = l.getD i 0 := by
  rw [List.getD_eq_getElem?_getD, List.getD_eq_getElem?_getD,
    List.getElem?_append_left h]

/-- The hemispheric-mirroring invariant of both grid builders, for a
northern latitude half `a` and local-time half `b` of equal length. -/
theorem mirror_pair (a b : List ℚ) (h : b.length = a.length) :
    (a ++ a.map fun x => -x).length % 2 = 0
  ∧ (b ++ b).length = (a ++ a.map fun x => -x).length
  ∧ ∀ i < (a ++ a.map fun x => -x).length / 2,
      (a ++ a.map fun x => -x).getD ((a ++ a.map fun x => -x).length / 2 + i) 0
        = -((a ++ a.map fun x => -x).getD i 0)
      ∧ (b ++ b).getD ((a ++ a.map fun x => -x).length / 2 + i) 0 = (b ++ b).getD i 0 := by
  have hk : (a ++ a.map fun x => -x).length / 2 = a.length := by
    simp only [List.length_append, List.length_map]
    omega
  refine ⟨by simp only [List.length_append, List.length_map]; omega,
    by simp [h], ?_⟩
  intro i hi
  rw [hk] at hi
  constructor
  · rw [hk, append_neg_getD a i hi, append_left_getD a _ i hi]
  · rw [hk, append_left_getD b b i (h ▸ hi), ← h, append_self_getD b i (h ▸ hi)]

/-- Claim C6: every grid the builder produces (vector and scalar, for all
constructor parameters) has even length `2k` with the local-time array of
the same length, and for every `i < k` the point at index `k + i` has the
negated latitude and the same local time as the point at index `i`. -/
theorem spec_c6 (env : Env) (dr M0 minlat maxlat : ℚ) (res : ℕ) :
    ((_get_vectorgrid env dr M0 minlat maxlat).1.length % 2 = 0
      ∧ (_get_vectorgrid env dr M0 minlat maxlat).2.length
          = (_get_vectorgrid env dr M0 minlat maxlat).1.length
      ∧ ∀ i < (_get_vectorgrid env dr M0 minlat maxlat).1.length / 2,
          (_get_vectorgrid env dr M0 minlat maxlat).1.getD
              ((_get_vectorgrid env dr M0 minlat maxlat).1.length / 2 + i) 0
            = -((_get_vectorgrid env dr M0 minlat maxlat).1.getD i 0)
          ∧ (_get_vectorgrid env dr M0 minlat maxlat).2.getD
              ((_get_vectorgrid env dr M0 minlat maxlat).1.length / 2 + i) 0
            = (_get_vectorgrid env dr M0 minlat maxlat).2.getD i 0)
  ∧ ((_get_scalargrid minlat maxlat res).1.length % 2 = 0
      ∧ (_get_scalargrid minlat maxlat res).2.length
          = (_get_scalargrid minlat maxlat res).1.length
      ∧ ∀ i < (_get_scalargrid minlat maxlat res).1.length / 2,
          (_get_scalargrid minlat maxlat res).1.getD
              ((_get_scalargrid minlat maxlat res).1.length / 2 + i) 0
            = -((_get_scalargrid minlat maxlat res).1.getD i 0)
          ∧ (_get_scalargrid minlat maxlat res).2.getD
              ((_get_scalargrid minlat maxlat res).1.length / 2 + i) 0
            = (_get_scalargrid minlat maxlat res).2.getD i 0) := by
  constructor
  · exact mirror_pair ((vectorgrid_pairs env dr M0 minlat maxlat).map Prod.fst)
      ((vectorgrid_pairs env dr M0 minlat maxlat).map Prod.snd) (by simp)
  · have hsc : _get_scalargrid minlat maxlat res
        = (scalargrid_mlat0 minlat maxlat res
            ++ (scalargrid_mlat0 minlat maxlat res).map (fun x => -x),
           ((scalargrid_mlt0 minlat maxlat res).map (fun x => x * 12 / 180)).map
              (fun x => x + 12)
            ++ ((scalargrid_mlt0 minlat maxlat res).map (fun x => x * 12 / 180)).map
              (fun x => x + 12)) := by
      simp [_get_scalargrid, List.map_append]
    rw [hsc]
    exact mirror_pair (scalargrid_mlat0 minlat maxlat res)
      (((scalargrid_mlt0 minlat maxlat res).map (fun x => x * 12 / 180)).map
        (fun x => x + 12))
      (by simp [scalargrid_mlat0, scalargrid_mlt0, List.length_flatMap, Function.comp_def])

/-- Two `zipWith`s with pointwise-equal functions agree. -/
theorem zipWith_ext {α β γ : Type} (f g : α → β → γ) (h : ∀ a b, f a b = g a b)
    (u : List α) (v : List β) : List.zipWith f u v = List.zipWith g u v := by
  have hfg : f = g := funext fun a => funext fun b => h a b
  rw [hfg]

/-- The custom-coordinate azimuthal matrices (`m * mlt * np.pi/12`) equal
the cached ones (`m * mlt * mlt2r` with `mlt2r = pi/12`): the two
groupings of the same product. -/
theorem azimF_eq_azimC (f : ℚ → ℚ) (ms : List ℕ) (mlt : List ℚ) (pi : ℚ) :
    azimF f ms mlt pi = azimC f ms mlt (pi / 12) := by
  unfold azimF azimC
  refine List.map_congr_left fun t _ => ?_
  refine List.map_congr_left fun m _ => ?_
  rw [mul_div_assoc]

/-- `-(u - v) = -u + v` componentwise. -/
theorem vneg_vsub (u v : List ℚ) : vneg (vsub u v) = vadd (vneg u) v := by
  unfold vneg vsub vadd
  rw [List.map_zipWith, List.zipWith_map_left]
  exact zipWith_ext _ _ (fun a b => by ring) u v

/-- A scalar factor commutes out of an elementwise matrix product. -/
theorem emul_smulMat (r : ℚ) (A B : List (List ℚ)) :
    emul (smulMat r A) B = smulMat r (emul A B) := by
  unfold emul smulMat
  rw [List.zipWith_map_left, List.map_zipWith]
  refine zipWith_ext _ _ (fun a b => ?_) A B
  rw [List.zipWith_map_left, List.map_zipWith]
  exact zipWith_ext _ _ (fun x y => by ring) a b

/-- A scalar factor commutes out of a row broadcast. -/
theorem bcastR_smulMat (r : ℚ) (A : List (List ℚ)) (m : List ℚ) :
    bcastR (smulMat r A) m = smulMat r (bcastR A m) := by
  unfold bcastR smulMat
  rw [List.map_map, List.map_map]
  refine List.map_congr_left fun row _ => ?_
  simp only [Function.comp]
  rw [List.zipWith_map_left, List.map_zipWith]
  exact zipWith_ext _ _ (fun x y => by ring) row m

/-- Scaling every element of a list scales its sum. -/
theorem sum_map_smul (r : ℚ) (l : List ℚ) : (l.map (fun x => r * x)).sum = r * l.sum := by
  induction l with
  | nil => simp
  | cons a l ih => simp [ih, mul_add]

/-- A scalar factor commutes out of a dot product. -/
theorem dot_map_smul (r : ℚ) (row c : List ℚ) :
    dot (row.map (fun x => r * x)) c = r * dot row c := by
  unfold dot
  rw [List.zipWith_map_left]
  have h : List.zipWith (fun a b => r * a * b) row c
      = (List.zipWith (· * ·) row c).map (fun x => r * x) := by
    rw [List.map_zipWith]
    exact zipWith_ext _ _ (fun a b => by ring) row c
  rw [h, sum_map_smul]

/-- A scalar factor commutes out of a matrix-vector product. -/
theorem matVec_smulMat (r : ℚ) (A : List (List ℚ)) (c : List ℚ) :
    matVec (smulMat r A) c = smulVec r (matVec A c) := by
  unfold matVec smulMat smulVec
  rw [List.map_map, List.map_map]
  refine List.map_congr_left fun row _ => ?_
  simp only [Function.comp]
  rw [dot_map_smul]

/-- A common scalar factor commutes out of a componentwise difference. -/
theorem smulVec_vsub (r : ℚ) (u v : List ℚ) :
    vsub (smulVec r u) (smulVec r v) = smulVec r (vsub u v) := by
  unfold vsub smulVec
  rw [List.zipWith_map_left, List.zipWith_map_right, List.map_zipWith]
  exact zipWith_ext _ _ (fun a b => by ring) u v

/-- A common scalar factor commutes out of a componentwise sum. -/
theorem smulVec_vadd (r : ℚ) (u v : List ℚ) :
    vadd (smulVec r u) (smulVec r v) = smulVec r (vadd u v) := by
  unfold vadd smulVec
  rw [List.zipWith_map_left, List.zipWith_map_right, List.map_zipWith]
  exact zipWith_ext _ _ (fun a b => by ring) u v

/-- A negated row broadcast equals the broadcast against the negated
matrix. -/
theorem bcast_negMat (r : List ℚ) (A : List (List ℚ)) :
    bcast (r.map (fun x => -x)) A = bcast r (negMat A) := by
  unfold bcast negMat
  rw [List.map_map]
  refine List.map_congr_left fun row _ => ?_
  simp only [Function.comp]
  rw [List.zipWith_map_left, List.zipWith_map_right]
  exact zipWith_ext _ _ (fun x y => by ring) r row

/-- The ground-perturbation north radial row against the cached
(sign-flipped) Legendre derivative matrix equals the row with the minus
sign on the radial factor (line 708) against the raw derivative matrix. -/
theorem bcast_pow_neg (rr : ℚ) (ns : List ℕ) (A : List (List ℚ)) :
    bcast (ns.map (fun n => rr ^ (2 * n + 1 : ℕ) * ((n : ℚ) + 1) / (n : ℚ))) (negMat A)
      = bcast (ns.map (fun n => -(rr ^ (2 * n + 1 : ℕ)) * ((n : ℚ) + 1) / (n : ℚ))) A := by
  rw [← bcast_negMat, List.map_map]
  congr 1
  refine List.map_congr_left fun n _ => ?_
  simp only [Function.comp]
  ring

/-- Claim C2: evaluating the divergence-free (and likewise the curl-free)
current at custom coordinates equal to the exact coordinates stored in the
vector grid reproduces the cached-grid evaluation: the custom path applies
the identical formula, differing only in where the basis matrices come
from.  Stated for any state whose basis matrices were produced by
`calculate_matrices` (as the constructor does). -/
theorem spec_c2 (env : Env) (s : AMPSState) :
    get_divergence_free_current env (calculate_matrices env s)
        (some (calculate_matrices env s).vectorgrid.1)
        (some (calculate_matrices env s).vectorgrid.2)
      = get_divergence_free_current env (calculate_matrices env s) none none
  ∧ get_curl_free_current env (calculate_matrices env s)
        (some (calculate_matrices env s).vectorgrid.1)
        (some (calculate_matrices env s).vectorgrid.2)
      = get_curl_free_current env (calculate_matrices env s) none none := by
  constructor <;>
    simp only [get_divergence_free_current, get_curl_free_current, calculate_matrices,
      azimF_eq_azimC, vneg_vsub, bcastR_smulMat, emul_smulMat, matVec_smulMat,
      smulVec_vsub, smulVec_vadd]

/-- Claim C7: `get_AE_indices` returns, per hemisphere, exactly the minimum
and maximum over the cached scalar-grid points of the northward
ground-perturbation component that `get_ground_perturbation` computes at
the scalar grid's coordinates, despite reusing the cached (sign-flipped)
Legendre-derivative matrix instead of a fresh Legendre call. -/
theorem spec_c7 (env : Env) (s : AMPSState) :
    get_AE_indices (calculate_matrices env s)
      = (amin (npSplit2 ((get_ground_perturbation env (calculate_matrices env s)
            (calculate_matrices env s).scalargrid.1
            (calculate_matrices env s).scalargrid.2).2)).1,
         amin (npSplit2 ((get_ground_perturbation env (calculate_matrices env s)
            (calculate_matrices env s).scalargrid.1
            (calculate_matrices env s).scalargrid.2).2)).2,
         amax (npSplit2 ((get_ground_perturbation env (calculate_matrices env s)
            (calculate_matrices env s).scalargrid.1
            (calculate_matrices env s).scalargrid.2).2)).1,
         amax (npSplit2 ((get_ground_perturbation env (calculate_matrices env s)
            (calculate_matrices env s).scalargrid.1
            (calculate_matrices env s).scalargrid.2).2)).2) := by
  simp only [get_AE_indices, get_ground_perturbation, calculate_matrices,
    azimF_eq_azimC, bcast_pow_neg]

end PyAMPS
